import Mathlib

/-!
Verification of `perso/voyages/optimize_images.py`, a batch image
optimizer: it recompresses JPEG files in a fixed list of travel folders,
downscales images exceeding 2000 x 2000, and optionally writes a WebP
sibling for each file.  The script is embedded shallowly: the Pillow
library is a structure of abstract codec functions, the filesystem an
association list from paths to byte contents, and Python exceptions an
explicit failure case of each step.
-/

namespace OptImg

/-- A filesystem path, as the list of its segments. -/
abbrev Path := List String

/-- Image color modes (the PIL mode strings relevant to this script). -/
inductive Mode
  | L
  | LA
  | P
  | PA
  | RGB
  | RGBA
  | CMYK
deriving DecidableEq

/-- Whether the mode carries an alpha channel. -/
def hasAlpha : Mode → Bool
  | .LA | .PA | .RGBA => true
  | _ => false

/-- Whether the mode is palette-indexed. -/
def isPalette : Mode → Bool
  | .P | .PA => true
  | _ => false

/-- Modes the JPEG encoder accepts; Pillow raises OSError when saving any
other mode as JPEG. -/
def jpegSaveable : Mode → Bool
  | .L | .RGB | .CMYK => true
  | _ => false

/-- A decoded in-memory image: color mode, pixel dimensions, and an
abstract pixel payload. -/
structure Image where
  mode : Mode
  width : Nat
  height : Nat
  data : List Nat
deriving DecidableEq

/-- The Pillow codec functions the script calls, kept abstract: decode
returns none on a corrupt or non-image file, and each encoder returns
none when encoding fails. -/
structure Codec where
  decode : List Nat → Option Image
  jpegEncode : Image → Nat → Option (List Nat)
  webpEncode : Image → Nat → Option (List Nat)

/-- img.save(path, JPEG, ...): fails outright when the mode is not
JPEG-serializable, otherwise defers to the abstract encoder. -/
def jpegSave (c : Codec) (img : Image) (quality : Nat) : Option (List Nat) :=
  if jpegSaveable img.mode then c.jpegEncode img quality else none

/-- img.save(path, WEBP, ...): the WebP plugin converts unsupported modes
itself, so only the abstract encoder can fail. -/
def webpSave (c : Codec) (img : Image) (quality : Nat) : Option (List Nat) :=
  c.webpEncode img quality

/-- The filesystem: a table of files (path to byte content) and the set of
existing directories. -/
structure FS where
  files : List (Path × List Nat)
  dirs : List Path
deriving DecidableEq

/-- Content of the file at a path, none when absent. -/
def fsGet (fs : FS) (p : Path) : Option (List Nat) :=
  (fs.files.find? (fun e => e.1 == p)).map (fun e => e.2)

/-- Overwrite the first binding of a path, or append a new one. -/
def setFile : List (Path × List Nat) → Path → List Nat → List (Path × List Nat)
  | [], p, v => [(p, v)]
  | e :: rest, p, v => if e.1 == p then (p, v) :: rest else e :: setFile rest p v

/-- Write a file: create it or overwrite it in place. -/
def fsSet (fs : FS) (p : Path) (v : List Nat) : FS :=
  { fs with files := setFile fs.files p v }

/-- os.path.getsize: byte size of the file at a path. -/
def getsize (fs : FS) (p : Path) : Nat :=
  ((fsGet fs p).getD []).length

/-- folder_path.exists() for a configured folder. -/
def folderExists (fs : FS) (p : Path) : Bool :=
  fs.dirs.contains p

/-- Characters of the stem of a file name: everything before the last dot,
or the whole name when there is no dot or the only dot is the leading one
(pathlib suffix semantics). -/
def stemChars (cs : List Char) : List Char :=
  match cs.reverse.dropWhile (fun ch => ch != '.') with
  | [] => cs
  | _ :: rest => if rest = [] then cs else rest.reverse

/-- image_path.with_suffix(s): replace the extension of the last path
segment. -/
def withSuffix (p : Path) (s : String) : Path :=
  p.dropLast ++ [String.mk (stemChars (p.getLastD "").data) ++ s]

/-- File name of a path: its last segment. -/
def nameOf (p : Path) : String :=
  p.getLastD ""

/-- Whether p is directly inside folder (exactly one level below it). -/
def isDirectChild (folder p : Path) : Bool :=
  p.length == folder.length + 1 && p.take folder.length == folder

/-- Case-sensitive match of a glob pattern of the shape star-dot-ext: the
file name ends with the literal extension text. -/
def extMatch (ext : String) (name : String) : Bool :=
  ext.data.isSuffixOf name.data

/-- folder_path.glob of a star pattern with the given literal extension:
the files directly inside the folder whose name matches, in file-table
order. -/
def glob (fs : FS) (folder : Path) (ext : String) : List Path :=
  (fs.files.map Prod.fst).filter (fun p => isDirectChild folder p && extMatch ext (nameOf p))

/-- Line 88: images = list(folder_path.glob(star .jpg)) +
list(folder_path.glob(star .JPG)). -/
def findImages (fs : FS) (folder : Path) : List Path :=
  glob fs folder ".jpg" ++ glob fs folder ".JPG"

/-- Line 14: QUALITY_JPG = 85. -/
def QUALITY_JPG : Nat := 85

/-- Line 15: QUALITY_WEBP = 80. -/
def QUALITY_WEBP : Nat := 80

/-- Line 16: CREATE_WEBP = True. -/
def CREATE_WEBP : Bool := true

/-- Line 17: MAX_SIZE = (2000, 2000). -/
def MAX_SIZE : Nat × Nat := (2000, 2000)

/-- Lines 20-29: TRAVEL_FOLDERS, each folder string split at slashes into
path segments. -/
def TRAVEL_FOLDERS : List Path :=
  [["Finlande"], ["Norvège"], ["Estonie"], ["Lettonie"],
   ["France", "Nice"], ["France", "Monaco"], ["France", "Cannes"],
   ["Espagne", "Lloret de mar"]]

/-- The module-level configuration constants, bundled so theorems can also
speak about other settings (notably CREATE_WEBP = false). -/
structure Config where
  qualityJpg : Nat
  qualityWebp : Nat
  createWebp : Bool
  maxSize : Nat × Nat
  folders : List Path
deriving DecidableEq

/-- The configuration the script actually runs with. -/
def defaultConfig : Config :=
  ⟨QUALITY_JPG, QUALITY_WEBP, CREATE_WEBP, MAX_SIZE, TRAVEL_FOLDERS⟩

/-- PIL round_aspect: floor or ceil of the exact fractional dimension,
whichever the key prefers (floor on ties), clamped to at least 1. -/
def roundAspect (q : ℚ) (key : ℤ → ℚ) : ℤ :=
  max (if key ⌊q⌋ ≤ key ⌈q⌉ then ⌊q⌋ else ⌈q⌉) 1

/-- PIL Image.thumbnail dimension semantics (exact rational arithmetic in
place of Python floats): no-op when the image already fits in size,
otherwise pin one dimension to the bound and round the other to keep the
aspect ratio as closely as integers allow. -/
def thumbnail (img : Image) (size : Nat × Nat) : Image :=
  if size.1 ≥ img.width ∧ size.2 ≥ img.height then img
  else
    let aspect : ℚ := (img.width : ℚ) / (img.height : ℚ)
    if (size.1 : ℚ) / (size.2 : ℚ) ≥ aspect then
      let x := roundAspect ((size.2 : ℚ) * aspect) (fun n => |aspect - (n : ℚ) / (size.2 : ℚ)|)
      { img with width := x.toNat, height := size.2 }
    else
      let y := roundAspect ((size.1 : ℚ) / aspect)
        (fun n => if n = 0 then 0 else |aspect - (size.1 : ℚ) / (n : ℚ)|)
      { img with width := size.1, height := y.toNat }

/-- Lines 37-38: convert RGBA or palette images to RGB. -/
def normalizeMode (img : Image) : Image :=
  if img.mode == Mode.RGBA || img.mode == Mode.P then { img with mode := Mode.RGB } else img

/-- Lines 41-42: downscale with Image.thumbnail when either dimension
exceeds the configured maximum. -/
def resizeIfNeeded (cfg : Config) (img : Image) : Image :=
  if img.width > cfg.maxSize.1 || img.height > cfg.maxSize.2 then thumbnail img cfg.maxSize
  else img

/-- The in-memory transformation optimize_image applies before saving:
mode normalization then conditional downscale. -/
def transformImage (cfg : Config) (img : Image) : Image :=
  resizeIfNeeded cfg (normalizeMode img)

/-- Observable outcome of one optimize_image call: the returned boolean,
the filesystem afterwards, and the before/after byte sizes printed by the
success message of line 51 (none when that line was never reached). -/
structure OptResult where
  success : Bool
  fs : FS
  reported : Option (Nat × Nat)
deriving DecidableEq

/-- Lines 31-64: optimize_image.  Every failing step (missing file, decode
error, unsupported save mode, encoder error, and the line-49 division by
zero when the original file was empty) is caught by the try/except and
turned into a false result. -/
def optimize_image (c : Codec) (cfg : Config) (fs : FS) (path : Path) : OptResult :=
  match fsGet fs path with
  | none => ⟨false, fs, none⟩
  | some content =>
    match c.decode content with
    | none => ⟨false, fs, none⟩
    | some img0 =>
      let img := transformImage cfg img0
      let original_size := content.length
      match jpegSave c img cfg.qualityJpg with
      | none => ⟨false, fs, none⟩
      | some bytes =>
        let fs1 := fsSet fs path bytes
        let new_size := bytes.length
        if original_size == 0 then ⟨false, fs1, none⟩
        else if cfg.createWebp then
          match webpSave c img cfg.qualityWebp with
          | none => ⟨false, fs1, some (original_size, new_size)⟩
          | some wb =>
            ⟨true, fsSet fs1 (withSuffix path ".webp") wb, some (original_size, new_size)⟩
        else ⟨true, fs1, some (original_size, new_size)⟩

/-- The three summary counters of main (lines 75-77). -/
structure Summary where
  totalImages : Nat
  totalOriginal : Nat
  totalOptimized : Nat
deriving DecidableEq

/-- Console messages the claims observe. -/
inductive Msg
  | warnMissing (folder : Path)
deriving DecidableEq

/-- State threaded through the batch loop of main. -/
structure RunState where
  summary : Summary
  fs : FS
  log : List Msg
deriving DecidableEq

/-- Lines 90-95: one iteration of the per-file loop; only a successful
call contributes to the counters. -/
def processFile (c : Codec) (cfg : Config) (st : RunState) (path : Path) : RunState :=
  let original_size := getsize st.fs path
  let r := optimize_image c cfg st.fs path
  if r.success then
    { st with
        summary := ⟨st.summary.totalImages + 1,
                    st.summary.totalOriginal + original_size,
                    st.summary.totalOptimized + getsize r.fs path⟩,
        fs := r.fs }
  else { st with fs := r.fs }

/-- The inner loop of main over the images found in one folder. -/
def fileLoop (c : Codec) (cfg : Config) (st : RunState) (paths : List Path) : RunState :=
  paths.foldl (processFile c cfg) st

/-- Lines 79-95: one iteration of the folder loop; a missing folder is
recorded as a warning and skipped. -/
def processFolder (c : Codec) (cfg : Config) (st : RunState) (folder : Path) : RunState :=
  if folderExists st.fs folder then fileLoop c cfg st (findImages st.fs folder)
  else { st with log := st.log ++ [Msg.warnMissing folder] }

/-- The loop of main over the configured folders. -/
def folderLoop (c : Codec) (cfg : Config) (st : RunState) (folders : List Path) : RunState :=
  folders.foldl (processFolder c cfg) st

/-- Counters start at zero, the log empty. -/
def initState (fs : FS) : RunState :=
  ⟨⟨0, 0, 0⟩, fs, []⟩

/-- The whole batch part of main, before the summary arithmetic. -/
def runFolders (c : Codec) (cfg : Config) (fs : FS) : RunState :=
  folderLoop c cfg (initState fs) cfg.folders

/-- The one uncaught exception main can raise. -/
inductive PyError
  | zeroDivision
deriving DecidableEq

/-- Lines 66-108: main.  The final state of the batch, and either the
saved percentage of line 105 or the ZeroDivisionError it raises when
total_original is zero. -/
def main (c : Codec) (cfg : Config) (fs : FS) : RunState × Except PyError ℚ :=
  let st := runFolders c cfg fs
  (st,
    if st.summary.totalOriginal = 0 then Except.error PyError.zeroDivision
    else
      Except.ok
        ((((st.summary.totalOriginal : ℚ) - (st.summary.totalOptimized : ℚ)) /
            (st.summary.totalOriginal : ℚ)) * 100))

/-- Line 120: the accepted confirmation answers. -/
def affirmativeTokens : List String :=
  ["o", "oui", "y", "yes"]

/-- response.lower(), character by character. -/
def pyLower (s : String) : String :=
  String.mk (s.data.map Char.toLower)

/-- Line 120: response.lower() in the affirmative token list. -/
def isAffirmative (response : String) : Bool :=
  affirmativeTokens.contains (pyLower response)

/-- Lines 117-123: the confirmation gate.  Returns what main returned (or
none when it never ran) together with the resulting filesystem. -/
def program (c : Codec) (cfg : Config) (response : String) (fs : FS) :
    Option (RunState × Except PyError ℚ) × FS :=
  if isAffirmative response then
    let r := main c cfg fs
    (some r, r.1.fs)
  else (none, fs)

/-- Mode encoding used by the sample codecs below. -/
def decodeMode : Nat → Mode
  | 0 => Mode.L
  | 1 => Mode.RGB
  | 2 => Mode.RGBA
  | 3 => Mode.P
  | 4 => Mode.LA
  | 5 => Mode.PA
  | _ => Mode.CMYK

/-- A concrete well-behaved codec for evaluating the embedding: a file
decodes when it starts with a mode tag and two dimensions, and both
encoders always succeed. -/
def codecA : Codec where
  decode := fun content =>
    match content with
    | m :: w :: h :: rest => some ⟨decodeMode m, w, h, rest⟩
    | _ => none
  jpegEncode := fun img q => some (q :: img.width :: img.height :: img.data)
  webpEncode := fun img q => some (q :: img.width :: img.height :: img.data)

/-- Like codecA but with a WebP encoder that always fails. -/
def codecB : Codec :=
  { codecA with webpEncode := fun _ _ => none }

/-- A sample filesystem: one folder holding one decodable RGBA image. -/
def fsA : FS :=
  ⟨[(["Finlande", "a.jpg"], [2, 100, 80])], [["Finlande"]]⟩

/-- The empty filesystem. -/
def emptyFS : FS :=
  ⟨[], []⟩

/-- A sample filesystem whose one file is empty, hence undecodable. -/
def fsBad : FS :=
  ⟨[(["Finlande", "bad.jpg"], [])], [["Finlande"]]⟩

theorem find?_setFile (p q : Path) (v : List Nat) :
    ∀ l : List (Path × List Nat),
      List.find? (fun e => e.1 == q) (setFile l p v) =
        if q = p then some (p, v) else List.find? (fun e => e.1 == q) l := by
  intro l
  induction l with
  | nil =>
    by_cases hq : q = p
    · simp [setFile, hq]
    · have h1 : (p == q) = false := beq_eq_false_iff_ne.mpr (Ne.symm hq)
      simp [setFile, h1, hq]
  | cons e rest ih =>
    by_cases hep : e.1 = p
    · have h0 : (e.1 == p) = true := beq_iff_eq.mpr hep
      by_cases hq : q = p
      · simp [setFile, h0, hq]
      · have h2 : (p == q) = false := beq_eq_false_iff_ne.mpr (Ne.symm hq)
        have h3 : (e.1 == q) = false := by
          rw [hep]
          exact h2
        simp [setFile, h0, h2, h3, hq]
    · have h0 : (e.1 == p) = false := beq_eq_false_iff_ne.mpr hep
      by_cases hq : q = p
      · have h3 : (e.1 == q) = false := by
          rw [hq]
          exact h0
        rw [hq] at ih
        simp [setFile, h0, h3, ih, hq]
      · cases hc : (e.1 == q) with
        | true => simp [setFile, h0, hc, hq]
        | false => simp [setFile, h0, hc, hq, ih]

theorem fsGet_fsSet (fs : FS) (p q : Path) (v : List Nat) :
    fsGet (fsSet fs p v) q = if q = p then some v else fsGet fs q := by
  unfold fsGet fsSet
  simp only [find?_setFile]
  by_cases h : q = p <;> simp [h]

theorem fsSet_dirs (fs : FS) (p : Path) (v : List Nat) :
    (fsSet fs p v).dirs = fs.dirs := rfl

theorem normalizeMode_width (img : Image) : (normalizeMode img).width = img.width := by
  unfold normalizeMode
  split <;> rfl

theorem normalizeMode_height (img : Image) : (normalizeMode img).height = img.height := by
  unfold normalizeMode
  split <;> rfl

theorem thumbnail_mode (img : Image) (size : Nat × Nat) :
    (thumbnail img size).mode = img.mode := by
  unfold thumbnail
  split
  · rfl
  · dsimp only
    split <;> rfl

theorem transformImage_mode (cfg : Config) (img : Image) :
    (transformImage cfg img).mode = (normalizeMode img).mode := by
  unfold transformImage resizeIfNeeded
  split
  · exact thumbnail_mode _ _
  · rfl

theorem one_le_roundAspect (q : ℚ) (key : ℤ → ℚ) : 1 ≤ roundAspect q key :=
  le_max_right _ _

theorem roundAspect_le (q : ℚ) (key : ℤ → ℚ) (B : ℤ) (hq : q ≤ (B : ℚ)) (hB : 1 ≤ B) :
    roundAspect q key ≤ B := by
  unfold roundAspect
  apply max_le _ hB
  split
  · exact le_trans (Int.floor_le_ceil q) (Int.ceil_le.mpr hq)
  · exact Int.ceil_le.mpr hq

theorem roundAspect_near (q : ℚ) (key : ℤ → ℚ) (hq : 0 < q) :
    |((roundAspect q key : ℤ) : ℚ) - q| < 1 := by
  have hfl : ((⌊q⌋ : ℤ) : ℚ) ≤ q := Int.floor_le q
  have hfl2 : q < ⌊q⌋ + 1 := Int.lt_floor_add_one q
  have hcl : q ≤ ((⌈q⌉ : ℤ) : ℚ) := Int.le_ceil q
  have hcl2 : ((⌈q⌉ : ℤ) : ℚ) < q + 1 := Int.ceil_lt_add_one q
  unfold roundAspect
  split
  · rcases le_or_lt 1 ⌊q⌋ with h1 | h1
    · rw [max_eq_left h1, abs_lt]
      constructor <;> push_cast <;> linarith
    · have h0 : (⌊q⌋ : ℤ) ≤ 1 := by omega
      rw [max_eq_right h0, abs_lt]
      have hq1 : q < 2 := by
        have : ((⌊q⌋ : ℤ) : ℚ) ≤ 0 := by exact_mod_cast (by omega : (⌊q⌋ : ℤ) ≤ 0)
        linarith
      constructor <;> push_cast <;> linarith
  · have h1 : 1 ≤ ⌈q⌉ := Int.ceil_pos.mpr hq
    rw [max_eq_left h1, abs_lt]
    constructor <;> push_cast <;> linarith

theorem thumbnail_dims (img : Image) (m : Nat) (hm : 1 ≤ m)
    (hw : 0 < img.width) (hh : 0 < img.height)
    (hbig : m < img.width ∨ m < img.height) :
    (thumbnail img (m, m)).width ≤ m ∧ (thumbnail img (m, m)).height ≤ m ∧
      (((thumbnail img (m, m)).height = m ∧
          |((thumbnail img (m, m)).width : ℚ) - m * img.width / img.height| < 1) ∨
        ((thumbnail img (m, m)).width = m ∧
          |((thumbnail img (m, m)).height : ℚ) - m * img.height / img.width| < 1)) := by
  have hwq : (0 : ℚ) < (img.width : ℚ) := by exact_mod_cast hw
  have hhq : (0 : ℚ) < (img.height : ℚ) := by exact_mod_cast hh
  have hmq : (0 : ℚ) < (m : ℚ) := by exact_mod_cast lt_of_lt_of_le one_pos hm
  have hguard : ¬((m, m).1 ≥ img.width ∧ (m, m).2 ≥ img.height) := by
    simp only [ge_iff_le]
    omega
  have hratio : ((m, m).1 : ℚ) / ((m, m).2 : ℚ) = 1 := div_self (ne_of_gt hmq)
  unfold thumbnail
  rw [if_neg hguard]
  simp only [hratio]
  split
  · next hc =>
    -- width ≤ height branch: the exact new width is m * aspect
    have haspect : (img.width : ℚ) / (img.height : ℚ) ≤ 1 := hc
    set e : ℚ := (m : ℚ) * ((img.width : ℚ) / (img.height : ℚ)) with he
    have hepos : 0 < e := by positivity
    have hele : e ≤ (m : ℚ) := mul_le_of_le_one_right (le_of_lt hmq) haspect
    set x := roundAspect e (fun n => |(img.width : ℚ) / (img.height : ℚ) - (n : ℚ) / ((m : ℚ))|)
      with hx
    have hx1 : 1 ≤ x := one_le_roundAspect _ _
    have hxm : x ≤ (m : ℤ) := by
      apply roundAspect_le _ _ _ (by exact_mod_cast hele)
      exact_mod_cast hm
    have hxnear : |((x : ℤ) : ℚ) - e| < 1 := roundAspect_near _ _ hepos
    have hxnat : ((x.toNat : ℕ) : ℚ) = ((x : ℤ) : ℚ) := by
      have := Int.toNat_of_nonneg (le_trans Int.one_nonneg hx1)
      exact_mod_cast congrArg (fun z : ℤ => (z : ℚ)) this
    refine ⟨?_, ?_, Or.inl ⟨rfl, ?_⟩⟩
    · exact Int.toNat_le.mpr (by exact_mod_cast hxm)
    · exact le_refl m
    · rw [hxnat]
      have : (m : ℚ) * (img.width : ℚ) / (img.height : ℚ) = e := by
        rw [he, mul_div_assoc]
      rw [this]
      exact hxnear
  · next hc =>
    -- width > height branch: the exact new height is m / aspect
    have haspect : 1 < (img.width : ℚ) / (img.height : ℚ) := lt_of_not_ge hc
    have haspect0 : 0 < (img.width : ℚ) / (img.height : ℚ) := lt_trans one_pos haspect
    set e : ℚ := (m : ℚ) / ((img.width : ℚ) / (img.height : ℚ)) with he
    have hepos : 0 < e := div_pos hmq haspect0
    have hele : e ≤ (m : ℚ) := div_le_self (le_of_lt hmq) (le_of_lt haspect)
    set y := roundAspect e
        (fun n => if n = 0 then 0 else |(img.width : ℚ) / (img.height : ℚ) - (m : ℚ) / (n : ℚ)|)
      with hy
    have hy1 : 1 ≤ y := one_le_roundAspect _ _
    have hym : y ≤ (m : ℤ) := by
      apply roundAspect_le _ _ _ (by exact_mod_cast hele)
      exact_mod_cast hm
    have hynear : |((y : ℤ) : ℚ) - e| < 1 := roundAspect_near _ _ hepos
    have hynat : ((y.toNat : ℕ) : ℚ) = ((y : ℤ) : ℚ) := by
      have := Int.toNat_of_nonneg (le_trans Int.one_nonneg hy1)
      exact_mod_cast congrArg (fun z : ℤ => (z : ℚ)) this
    refine ⟨?_, ?_, Or.inr ⟨rfl, ?_⟩⟩
    · exact le_refl m
    · exact Int.toNat_le.mpr (by exact_mod_cast hym)
    · rw [hynat]
      have : (m : ℚ) * (img.height : ℚ) / (img.width : ℚ) = e := by
        rw [he, div_div_eq_mul_div]
      rw [this]
      exact hynear

/-- C1: for every valid source image (positive dimensions), after the
in-memory transform of optimize_image with the configured maximum
(2000, 2000): when the original exceeded either bound, both resulting
dimensions are at most 2000 and the aspect ratio is preserved up to
integer rounding (one dimension is pinned at 2000, the other is within 1
of the exact aspect-preserving value); when the original exceeded neither
bound, both dimensions are unchanged. -/
theorem c1_transform_dimensions (img : Image)
    (hw : 0 < img.width) (hh : 0 < img.height) :
    ((2000 < img.width ∨ 2000 < img.height) →
      (transformImage defaultConfig img).width ≤ 2000 ∧
      (transformImage defaultConfig img).height ≤ 2000 ∧
      (((transformImage defaultConfig img).height = 2000 ∧
          |((transformImage defaultConfig img).width : ℚ) -
            2000 * img.width / img.height| < 1) ∨
        ((transformImage defaultConfig img).width = 2000 ∧
          |((transformImage defaultConfig img).height : ℚ) -
            2000 * img.height / img.width| < 1))) ∧
    (img.width ≤ 2000 → img.height ≤ 2000 →
      (transformImage defaultConfig img).width = img.width ∧
      (transformImage defaultConfig img).height = img.height) := by
  have hnw := normalizeMode_width img
  have hnh := normalizeMode_height img
  have e1 : defaultConfig.maxSize.1 = 2000 := rfl
  have e2 : defaultConfig.maxSize.2 = 2000 := rfl
  constructor
  · intro hbig
    have hbig2 : 2000 < (normalizeMode img).width ∨ 2000 < (normalizeMode img).height := by
      rw [hnw, hnh]
      exact hbig
    have hT : transformImage defaultConfig img = thumbnail (normalizeMode img) (2000, 2000) := by
      unfold transformImage resizeIfNeeded
      split
      · rfl
      · next hcond =>
        exfalso
        simp only [gt_iff_lt, Bool.or_eq_true, decide_eq_true_eq, e1, e2] at hcond
        exact hcond hbig2
    rw [hT]
    obtain ⟨h1, h2, h3⟩ :=
      thumbnail_dims (normalizeMode img) 2000 (by norm_num)
        (by rw [hnw]; exact hw) (by rw [hnh]; exact hh) hbig2
    rw [hnw, hnh] at h3
    exact ⟨h1, h2, h3⟩
  · intro hbw hbh
    have hT : transformImage defaultConfig img = normalizeMode img := by
      unfold transformImage resizeIfNeeded
      split
      · next hcond =>
        exfalso
        simp only [gt_iff_lt, Bool.or_eq_true, decide_eq_true_eq, e1, e2] at hcond
        rw [hnw, hnh] at hcond
        rcases hcond with h | h
        · exact absurd hbw (not_le.mpr h)
        · exact absurd hbh (not_le.mpr h)
      · rfl
    rw [hT, hnw, hnh]
    exact ⟨rfl, rfl⟩

/-- Witness for C1 at a concrete 4000 x 3000 image. -/
theorem c1_transform_dimensions_witness :
    0 < (4000 : Nat) ∧ 0 < (3000 : Nat) ∧
    (transformImage defaultConfig ⟨Mode.RGB, 4000, 3000, []⟩).width ≤ 2000 ∧
    (transformImage defaultConfig ⟨Mode.RGB, 4000, 3000, []⟩).height ≤ 2000 :=
  ⟨by decide, by decide,
    ((c1_transform_dimensions ⟨Mode.RGB, 4000, 3000, []⟩ (by decide) (by decide)).1
      (Or.inl (by decide))).1,
    ((c1_transform_dimensions ⟨Mode.RGB, 4000, 3000, []⟩ (by decide) (by decide)).1
      (Or.inl (by decide))).2.1⟩

theorem optimize_image_fs_shape (c : Codec) (cfg : Config) (fs : FS) (path : Path) :
    ((optimize_image c cfg fs path).fs = fs ∧ (optimize_image c cfg fs path).success = false) ∨
    (∃ bytes, (optimize_image c cfg fs path).fs = fsSet fs path bytes ∧
      ((optimize_image c cfg fs path).success = true → cfg.createWebp = false)) ∨
    (∃ bytes wb, cfg.createWebp = true ∧
      (optimize_image c cfg fs path).fs =
        fsSet (fsSet fs path bytes) (withSuffix path ".webp") wb ∧
      (optimize_image c cfg fs path).success = true) := by
  unfold optimize_image
  split
  · exact Or.inl ⟨rfl, rfl⟩
  · split
    · exact Or.inl ⟨rfl, rfl⟩
    · dsimp only
      split
      · exact Or.inl ⟨rfl, rfl⟩
      · next bytes hbytes =>
        split
        · exact Or.inr (Or.inl ⟨bytes, rfl, fun h => absurd h (by simp)⟩)
        · split
          · next hcw =>
            split
            · exact Or.inr (Or.inl ⟨bytes, rfl, fun h => absurd h (by simp)⟩)
            · next wb hwb =>
              exact Or.inr (Or.inr ⟨bytes, wb, hcw, rfl, rfl⟩)
          · next hcw =>
            exact Or.inr (Or.inl ⟨bytes, rfl, fun _ => by
              rw [Bool.not_eq_true] at hcw
              exact hcw⟩)

theorem optimize_image_success_shape (c : Codec) (cfg : Config) (fs : FS) (path : Path)
    (hs : (optimize_image c cfg fs path).success = true) :
    ∃ content img bytes,
      fsGet fs path = some content ∧ c.decode content = some img ∧
      jpegSave c (transformImage cfg img) cfg.qualityJpg = some bytes ∧
      content.length ≠ 0 ∧
      (optimize_image c cfg fs path).reported = some (content.length, bytes.length) ∧
      ((cfg.createWebp = true ∧
          ∃ wb, webpSave c (transformImage cfg img) cfg.qualityWebp = some wb ∧
            (optimize_image c cfg fs path).fs =
              fsSet (fsSet fs path bytes) (withSuffix path ".webp") wb) ∨
        (cfg.createWebp = false ∧ (optimize_image c cfg fs path).fs = fsSet fs path bytes)) := by
  revert hs
  unfold optimize_image
  split
  · intro h
    exact absurd h (by simp)
  · next content hcontent =>
    split
    · intro h
      exact absurd h (by simp)
    · next img0 himg0 =>
      dsimp only
      split
      · intro h
        exact absurd h (by simp)
      · next bytes hbytes =>
        split
        · intro h
          exact absurd h (by simp)
        · next hlen =>
          split
          · next hcw =>
            split
            · intro h
              exact absurd h (by simp)
            · next wb hwb =>
              intro _
              refine ⟨content, img0, bytes, hcontent, himg0, hbytes, ?_, rfl,
                Or.inl ⟨hcw, wb, hwb, rfl⟩⟩
              intro hzero
              rw [hzero] at hlen
              simp at hlen
          · next hcw =>
            intro _
            refine ⟨content, img0, bytes, hcontent, himg0, hbytes, ?_, rfl,
              Or.inr ⟨by rwa [Bool.not_eq_true] at hcw, rfl⟩⟩
            intro hzero
            rw [hzero] at hlen
            simp at hlen

/-- C2: for every valid source image whose mode has an alpha channel or is
palette-indexed, when optimize_image succeeds the image it saved (the
in-memory transform of the decoded image) has no alpha channel, is not
palette-indexed, and is in fact plain RGB. -/
theorem c2_mode_normalized (c : Codec) (cfg : Config) (fs : FS) (path : Path)
    (content : List Nat) (img : Image)
    (hget : fsGet fs path = some content) (hdec : c.decode content = some img)
    (hap : hasAlpha img.mode = true ∨ isPalette img.mode = true)
    (hs : (optimize_image c cfg fs path).success = true) :
    hasAlpha (transformImage cfg img).mode = false ∧
    isPalette (transformImage cfg img).mode = false ∧
    (transformImage cfg img).mode = Mode.RGB := by
  obtain ⟨content2, img2, bytes, hget2, hdec2, hjpeg, -, -, -⟩ :=
    optimize_image_success_shape c cfg fs path hs
  rw [hget] at hget2
  injection hget2 with hc2
  rw [← hc2] at hdec2
  rw [hdec] at hdec2
  injection hdec2 with hi2
  rw [← hi2] at hjpeg
  have hsv : jpegSaveable (transformImage cfg img).mode = true := by
    unfold jpegSave at hjpeg
    split at hjpeg
    · assumption
    · cases hjpeg
  have hmode := transformImage_mode cfg img
  rw [hmode] at hsv
  rw [hmode]
  cases himg : img.mode <;>
    simp_all [normalizeMode, hasAlpha, isPalette, jpegSaveable]

/-- Witness for C2: a concrete RGBA image through the default run. -/
theorem c2_mode_normalized_witness :
    hasAlpha (transformImage defaultConfig ⟨Mode.RGBA, 100, 80, []⟩).mode = false ∧
    isPalette (transformImage defaultConfig ⟨Mode.RGBA, 100, 80, []⟩).mode = false ∧
    (transformImage defaultConfig ⟨Mode.RGBA, 100, 80, []⟩).mode = Mode.RGB :=
  c2_mode_normalized codecA defaultConfig fsA ["Finlande", "a.jpg"] [2, 100, 80]
    ⟨Mode.RGBA, 100, 80, []⟩ (by decide) rfl (Or.inl rfl) (by decide)

/-- C3: optimize_image never lets a failure escape: on a corrupted or
non-image file (one that exists but does not decode) it returns the
failure result with the filesystem untouched, and the batch loop over the
remaining files proceeds exactly as if the failing file had not been
there. -/
theorem c3_failure_isolated (c : Codec) (cfg : Config) (fs : FS) (path : Path)
    (content : List Nat) (s : Summary) (log : List Msg) (ps : List Path)
    (hget : fsGet fs path = some content) (hdec : c.decode content = none) :
    optimize_image c cfg fs path = ⟨false, fs, none⟩ ∧
    fileLoop c cfg ⟨s, fs, log⟩ (path :: ps) = fileLoop c cfg ⟨s, fs, log⟩ ps := by
  have h1 : optimize_image c cfg fs path = ⟨false, fs, none⟩ := by
    unfold optimize_image
    rw [hget]
    dsimp only
    rw [hdec]
  refine ⟨h1, ?_⟩
  simp only [fileLoop, List.foldl_cons]
  have h2 : processFile c cfg ⟨s, fs, log⟩ path = ⟨s, fs, log⟩ := by
    unfold processFile
    rw [h1]
    simp
  rw [h2]

/-- Witness for C3 at a concrete empty (undecodable) file. -/
theorem c3_failure_isolated_witness :
    optimize_image codecA defaultConfig fsBad ["Finlande", "bad.jpg"] = ⟨false, fsBad, none⟩ :=
  (c3_failure_isolated codecA defaultConfig fsBad ["Finlande", "bad.jpg"] [] ⟨0, 0, 0⟩ [] []
    (by decide) rfl).1

/-- C4: on success, the outcome of optimize_image carries the success flag
together with the byte size the file had before the call and the byte size
it has after the call (for any path whose derived WebP sibling path is a
different file, as is the case for every file the batch selects). -/
theorem c4_result_sizes (c : Codec) (cfg : Config) (fs : FS) (path : Path)
    (hwp : withSuffix path ".webp" ≠ path)
    (hs : (optimize_image c cfg fs path).success = true) :
    (optimize_image c cfg fs path).reported =
      some (getsize fs path, getsize (optimize_image c cfg fs path).fs path) := by
  obtain ⟨content, img, bytes, hget, hdec, hjpeg, hlen, hrep, hrest⟩ :=
    optimize_image_success_shape c cfg fs path hs
  rw [hrep]
  have hosize : getsize fs path = content.length := by
    unfold getsize
    rw [hget]
    rfl
  rcases hrest with ⟨hcw, wb, hwb, hfs⟩ | ⟨hcw, hfs⟩
  · have hnsize :
        getsize (optimize_image c cfg fs path).fs path = bytes.length := by
      unfold getsize
      rw [hfs, fsGet_fsSet, if_neg (fun h => hwp h.symm), fsGet_fsSet, if_pos rfl]
      rfl
    rw [hosize, hnsize]
  · have hnsize :
        getsize (optimize_image c cfg fs path).fs path = bytes.length := by
      unfold getsize
      rw [hfs, fsGet_fsSet, if_pos rfl]
      rfl
    rw [hosize, hnsize]

/-- Witness for C4 at a concrete successful run. -/
theorem c4_result_sizes_witness :
    (optimize_image codecA defaultConfig fsA ["Finlande", "a.jpg"]).reported =
      some (getsize fsA ["Finlande", "a.jpg"],
        getsize (optimize_image codecA defaultConfig fsA ["Finlande", "a.jpg"]).fs
          ["Finlande", "a.jpg"]) :=
  c4_result_sizes codecA defaultConfig fsA ["Finlande", "a.jpg"] (by decide) (by decide)

/-- C6: optimize_image touches no file other than the asset and its one
derived WebP sibling; it never deletes a file and never removes a
directory; when the secondary format is enabled and the call succeeds the
sibling exists afterwards; when it is disabled only the asset itself can
change; and a successful call implies the asset existed beforehand. -/
theorem c6_frame (c : Codec) (cfg : Config) (fs : FS) (path q : Path) :
    (q ≠ path → q ≠ withSuffix path ".webp" →
      fsGet (optimize_image c cfg fs path).fs q = fsGet fs q) ∧
    (fsGet fs q ≠ none → fsGet (optimize_image c cfg fs path).fs q ≠ none) ∧
    (optimize_image c cfg fs path).fs.dirs = fs.dirs ∧
    (cfg.createWebp = true → (optimize_image c cfg fs path).success = true →
      fsGet (optimize_image c cfg fs path).fs (withSuffix path ".webp") ≠ none) ∧
    (cfg.createWebp = false → q ≠ path →
      fsGet (optimize_image c cfg fs path).fs q = fsGet fs q) ∧
    ((optimize_image c cfg fs path).success = true → fsGet fs path ≠ none) := by
  have h6 : (optimize_image c cfg fs path).success = true → fsGet fs path ≠ none := by
    intro hs
    obtain ⟨content, img, bytes, hget, -⟩ := optimize_image_success_shape c cfg fs path hs
    rw [hget]
    simp
  rcases optimize_image_fs_shape c cfg fs path with
    ⟨hfs, hsucc⟩ | ⟨bytes, hfs, himp⟩ | ⟨bytes, wb, hcw, hfs, hsucc⟩
  · refine ⟨fun _ _ => by rw [hfs], fun h => by rw [hfs]; exact h, by rw [hfs], ?_, ?_, h6⟩
    · intro _ hs
      rw [hsucc] at hs
      exact absurd hs (by simp)
    · intro _ _
      rw [hfs]
  · refine ⟨?_, ?_, by rw [hfs]; rfl, ?_, ?_, h6⟩
    · intro hq _
      rw [hfs, fsGet_fsSet, if_neg hq]
    · intro h
      rw [hfs, fsGet_fsSet]
      by_cases hq : q = path
      · rw [if_pos hq]
        simp
      · rw [if_neg hq]
        exact h
    · intro hcw hs
      have := himp hs
      rw [hcw] at this
      exact absurd this (by simp)
    · intro _ hq
      rw [hfs, fsGet_fsSet, if_neg hq]
  · refine ⟨?_, ?_, by rw [hfs]; rfl, ?_, ?_, h6⟩
    · intro hq1 hq2
      rw [hfs, fsGet_fsSet, if_neg hq2, fsGet_fsSet, if_neg hq1]
    · intro h
      rw [hfs, fsGet_fsSet]
      by_cases hq2 : q = withSuffix path ".webp"
      · rw [if_pos hq2]
        simp
      · rw [if_neg hq2, fsGet_fsSet]
        by_cases hq1 : q = path
        · rw [if_pos hq1]
          simp
        · rw [if_neg hq1]
          exact h
    · intro _ _
      rw [hfs, fsGet_fsSet, if_pos rfl]
      simp
    · intro hcwf _
      rw [hcw] at hcwf
      exact absurd hcwf (by simp)

/-- Witness for C6: an unrelated file is untouched and the WebP sibling
exists after a successful default-configuration run. -/
theorem c6_frame_witness :
    fsGet (optimize_image codecA defaultConfig fsA ["Finlande", "a.jpg"]).fs
        ["Finlande", "other.jpg"] =
      fsGet fsA ["Finlande", "other.jpg"] ∧
    fsGet (optimize_image codecA defaultConfig fsA ["Finlande", "a.jpg"]).fs
        (withSuffix ["Finlande", "a.jpg"] ".webp") ≠ none :=
  ⟨(c6_frame codecA defaultConfig fsA ["Finlande", "a.jpg"] ["Finlande", "other.jpg"]).1
      (by decide) (by decide),
    (c6_frame codecA defaultConfig fsA ["Finlande", "a.jpg"] ["Finlande", "other.jpg"]).2.2.2.1
      (by decide) (by decide)⟩

/-- C7: a configured folder that does not exist is recorded as a warning
and skipped: the folder loop continues with the remaining folders from a
state whose counters and filesystem are unchanged, only the log having
grown by the warning. -/
theorem c7_missing_folder (c : Codec) (cfg : Config) (st : RunState) (folder : Path)
    (rest : List Path) (hmiss : folderExists st.fs folder = false) :
    processFolder c cfg st folder = { st with log := st.log ++ [Msg.warnMissing folder] } ∧
    folderLoop c cfg st (folder :: rest) =
      folderLoop c cfg { st with log := st.log ++ [Msg.warnMissing folder] } rest := by
  have h1 : processFolder c cfg st folder =
      { st with log := st.log ++ [Msg.warnMissing folder] } := by
    unfold processFolder
    rw [hmiss]
    simp
  exact ⟨h1, by simp only [folderLoop, List.foldl_cons, h1]⟩

/-- Witness for C7: the first configured folder on the empty filesystem. -/
theorem c7_missing_folder_witness :
    processFolder codecA defaultConfig (initState emptyFS) ["Finlande"] =
      { initState emptyFS with
          log := (initState emptyFS).log ++ [Msg.warnMissing ["Finlande"]] } :=
  (c7_missing_folder codecA defaultConfig (initState emptyFS) ["Finlande"] [] (by decide)).1

/-- C8: the confirmation gate.  An affirmative token (French o/oui or
English y/yes, compared lowercased) runs main; any other response leaves
the program returning no run result and the filesystem exactly as it was. -/
theorem c8_confirmation (c : Codec) (cfg : Config) (response : String) (fs : FS) :
    (pyLower response ∈ affirmativeTokens →
      program c cfg response fs = (some (main c cfg fs), (main c cfg fs).1.fs)) ∧
    (pyLower response ∉ affirmativeTokens → program c cfg response fs = (none, fs)) := by
  have haff : isAffirmative response = true ↔ pyLower response ∈ affirmativeTokens := by
    unfold isAffirmative
    exact ⟨List.mem_of_elem_eq_true, List.elem_eq_true_of_mem⟩
  constructor
  · intro hmem
    unfold program
    rw [if_pos (haff.mpr hmem)]
  · intro hmem
    unfold program
    rw [if_neg (fun h => hmem (haff.mp h))]

/-- Witness for C8: an uppercase French yes runs main, any other answer
aborts without touching the filesystem. -/
theorem c8_confirmation_witness :
    program codecA defaultConfig "OUI" emptyFS =
      (some (main codecA defaultConfig emptyFS), (main codecA defaultConfig emptyFS).1.fs) ∧
    program codecA defaultConfig "non" emptyFS = (none, emptyFS) :=
  ⟨(c8_confirmation codecA defaultConfig "OUI" emptyFS).1 (by decide),
    (c8_confirmation codecA defaultConfig "non" emptyFS).2 (by decide)⟩

/-- C5 is false as stated: selection is not case-insensitive.  A file
named a.Jpg directly inside a configured folder matches the
case-insensitive criterion, yet the two globs of line 88 (lowercase .jpg
and uppercase .JPG only) do not select it. -/
theorem c5_case_insensitive_counterexample :
    ¬(∀ (fs : FS) (folder p : Path), p ∈ fs.files.map Prod.fst →
        (p ∈ findImages fs folder ↔
          (isDirectChild folder p = true ∧
            extMatch ".jpg" (pyLower (nameOf p)) = true))) := by
  intro hcl
  have h := hcl ⟨[(["Finlande", "a.Jpg"], [1, 2, 3])], [["Finlande"]]⟩ ["Finlande"]
    ["Finlande", "a.Jpg"] (by decide)
  have h2 : (["Finlande", "a.Jpg"] : Path) ∈
      findImages ⟨[(["Finlande", "a.Jpg"], [1, 2, 3])], [["Finlande"]]⟩ ["Finlande"] :=
    h.mpr (by decide)
  exact absurd h2 (by decide)

/-- C5 (amended): a file present in the table is selected for processing
iff it lies directly inside the folder (one level only, non-recursive)
and its name ends in the literal extension .jpg or the literal extension
.JPG; any other casing of the extension is not selected. -/
theorem c5_selection_amended (fs : FS) (folder p : Path)
    (hp : p ∈ fs.files.map Prod.fst) :
    p ∈ findImages fs folder ↔
      (isDirectChild folder p = true ∧
        (extMatch ".jpg" (nameOf p) = true ∨ extMatch ".JPG" (nameOf p) = true)) := by
  unfold findImages glob
  simp only [List.mem_append, List.mem_filter, Bool.and_eq_true]
  constructor
  · rintro (⟨-, h1, h2⟩ | ⟨-, h1, h2⟩)
    · exact ⟨h1, Or.inl h2⟩
    · exact ⟨h1, Or.inr h2⟩
  · rintro ⟨h1, h2 | h2⟩
    · exact Or.inl ⟨hp, h1, h2⟩
    · exact Or.inr ⟨hp, h1, h2⟩

/-- Witness for the amended C5 at a concrete file. -/
theorem c5_selection_amended_witness :
    ["Finlande", "a.jpg"] ∈ findImages fsA ["Finlande"] ↔
      (isDirectChild ["Finlande"] ["Finlande", "a.jpg"] = true ∧
        (extMatch ".jpg" (nameOf ["Finlande", "a.jpg"]) = true ∨
          extMatch ".JPG" (nameOf ["Finlande", "a.jpg"]) = true)) :=
  c5_selection_amended fsA ["Finlande"] ["Finlande", "a.jpg"] (by decide)

theorem fileLoop_cons (c : Codec) (cfg : Config) (st : RunState) (p : Path) (ps : List Path) :
    fileLoop c cfg st (p :: ps) = fileLoop c cfg (processFile c cfg st p) ps := rfl

theorem folderLoop_cons (c : Codec) (cfg : Config) (st : RunState) (f : Path)
    (rest : List Path) :
    folderLoop c cfg st (f :: rest) = folderLoop c cfg (processFolder c cfg st f) rest := rfl

theorem processFile_summary_cases (c : Codec) (cfg : Config) (st : RunState) (p : Path) :
    (processFile c cfg st p).summary = st.summary ∨
    (processFile c cfg st p).summary.totalImages = st.summary.totalImages + 1 := by
  unfold processFile
  dsimp only
  split
  · right
    rfl
  · left
    rfl

theorem fileLoop_images_mono (c : Codec) (cfg : Config) (ps : List Path) :
    ∀ st : RunState, st.summary.totalImages ≤ (fileLoop c cfg st ps).summary.totalImages := by
  induction ps with
  | nil =>
    intro st
    exact le_refl _
  | cons p ps ih =>
    intro st
    rw [fileLoop_cons]
    refine le_trans ?_ (ih (processFile c cfg st p))
    rcases processFile_summary_cases c cfg st p with h | h
    · rw [h]
    · rw [h]
      exact Nat.le_succ _

theorem fileLoop_orig_of_images (c : Codec) (cfg : Config) (ps : List Path) :
    ∀ st : RunState,
      (fileLoop c cfg st ps).summary.totalImages = st.summary.totalImages →
      (fileLoop c cfg st ps).summary.totalOriginal = st.summary.totalOriginal := by
  induction ps with
  | nil =>
    intro st _
    rfl
  | cons p ps ih =>
    intro st h
    rw [fileLoop_cons] at h ⊢
    rcases processFile_summary_cases c cfg st p with hc | hc
    · have h2 : (fileLoop c cfg (processFile c cfg st p) ps).summary.totalImages =
          (processFile c cfg st p).summary.totalImages := by
        rw [hc]
        exact h
      have h3 := ih _ h2
      rw [h3, hc]
    · exfalso
      have hmono := fileLoop_images_mono c cfg ps (processFile c cfg st p)
      rw [hc, h] at hmono
      omega

theorem processFolder_images_mono (c : Codec) (cfg : Config) (st : RunState) (folder : Path) :
    st.summary.totalImages ≤ (processFolder c cfg st folder).summary.totalImages := by
  unfold processFolder
  split
  · exact fileLoop_images_mono c cfg _ st
  · exact le_refl _

theorem processFolder_orig_of_images (c : Codec) (cfg : Config) (st : RunState) (folder : Path) :
    (processFolder c cfg st folder).summary.totalImages = st.summary.totalImages →
    (processFolder c cfg st folder).summary.totalOriginal = st.summary.totalOriginal := by
  unfold processFolder
  split
  · exact fileLoop_orig_of_images c cfg _ st
  · intro _
    rfl

theorem folderLoop_images_mono (c : Codec) (cfg : Config) (folders : List Path) :
    ∀ st : RunState,
      st.summary.totalImages ≤ (folderLoop c cfg st folders).summary.totalImages := by
  induction folders with
  | nil =>
    intro st
    exact le_refl _
  | cons f rest ih =>
    intro st
    rw [folderLoop_cons]
    exact le_trans (processFolder_images_mono c cfg st f) (ih _)

theorem folderLoop_orig_of_images (c : Codec) (cfg : Config) (folders : List Path) :
    ∀ st : RunState,
      (folderLoop c cfg st folders).summary.totalImages = st.summary.totalImages →
      (folderLoop c cfg st folders).summary.totalOriginal = st.summary.totalOriginal := by
  induction folders with
  | nil =>
    intro st _
    rfl
  | cons f rest ih =>
    intro st h
    rw [folderLoop_cons] at h ⊢
    have hmono2 := folderLoop_images_mono c cfg rest (processFolder c cfg st f)
    have hmono1 := processFolder_images_mono c cfg st f
    have himg : (processFolder c cfg st f).summary.totalImages = st.summary.totalImages := by
      omega
    have h2 : (folderLoop c cfg (processFolder c cfg st f) rest).summary.totalImages =
        (processFolder c cfg st f).summary.totalImages := by
      rw [himg]
      exact h
    have h3 := ih _ h2
    rw [h3]
    exact processFolder_orig_of_images c cfg st f himg

theorem runFolders_orig_zero (c : Codec) (cfg : Config) (fs : FS)
    (h : (runFolders c cfg fs).summary.totalImages = 0) :
    (runFolders c cfg fs).summary.totalOriginal = 0 := by
  unfold runFolders at h ⊢
  exact folderLoop_orig_of_images c cfg cfg.folders (initState fs) h

/-- C9 (implicit): when the confirmation is affirmative and no file was
successfully processed, total_original stays 0 and the summary arithmetic
of line 105 divides by it, raising ZeroDivisionError; conversely the
saved-percentage report is only produced when at least one file was
successfully transformed. -/
theorem c9_zero_division (c : Codec) (fs : FS) (response : String)
    (haff : isAffirmative response = true) :
    ((runFolders c defaultConfig fs).summary.totalImages = 0 →
      (program c defaultConfig response fs).1 =
        some (runFolders c defaultConfig fs, Except.error PyError.zeroDivision)) ∧
    (∀ q : ℚ, (main c defaultConfig fs).2 = Except.ok q →
      0 < (runFolders c defaultConfig fs).summary.totalImages) := by
  constructor
  · intro hzero
    have horig := runFolders_orig_zero c defaultConfig fs hzero
    have hm : main c defaultConfig fs =
        (runFolders c defaultConfig fs, Except.error PyError.zeroDivision) := by
      unfold main
      dsimp only
      rw [if_pos horig]
    unfold program
    rw [if_pos haff, hm]
  · intro q hok
    by_contra hne
    have hzero : (runFolders c defaultConfig fs).summary.totalImages = 0 := by omega
    have horig := runFolders_orig_zero c defaultConfig fs hzero
    unfold main at hok
    dsimp only at hok
    rw [if_pos horig] at hok
    cases hok

/-- Witness for C9: the empty filesystem processes nothing and main
raises. -/
theorem c9_zero_division_witness :
    (program codecA defaultConfig "o" emptyFS).1 =
      some (runFolders codecA defaultConfig emptyFS, Except.error PyError.zeroDivision) :=
  (c9_zero_division codecA emptyFS "o" (by decide)).1 (by decide)

/-- C10 (implicit): when the WebP encode fails after the JPEG re-encode
already succeeded, optimize_image returns a failure result although the
source file has already been overwritten with the re-encoded JPEG bytes,
and the batch loop therefore excludes that file from every summary
counter. -/
theorem c10_webp_failure_after_overwrite (c : Codec) (cfg : Config) (fs : FS) (path : Path)
    (content : List Nat) (img : Image) (bytes : List Nat) (s : Summary) (log : List Msg)
    (hcw : cfg.createWebp = true)
    (hget : fsGet fs path = some content)
    (hlen : content.length ≠ 0)
    (hdec : c.decode content = some img)
    (hjpeg : jpegSave c (transformImage cfg img) cfg.qualityJpg = some bytes)
    (hwebp : webpSave c (transformImage cfg img) cfg.qualityWebp = none) :
    optimize_image c cfg fs path =
      ⟨false, fsSet fs path bytes, some (content.length, bytes.length)⟩ ∧
    fsGet (optimize_image c cfg fs path).fs path = some bytes ∧
    processFile c cfg ⟨s, fs, log⟩ path = ⟨s, fsSet fs path bytes, log⟩ := by
  have hz : ¬((content.length == 0) = true) := by
    simp only [beq_iff_eq]
    exact hlen
  have h1 : optimize_image c cfg fs path =
      ⟨false, fsSet fs path bytes, some (content.length, bytes.length)⟩ := by
    unfold optimize_image
    rw [hget]
    dsimp only
    rw [hdec]
    dsimp only
    rw [hjpeg]
    dsimp only
    rw [if_neg hz, if_pos hcw, hwebp]
  refine ⟨h1, ?_, ?_⟩
  · rw [h1]
    rw [fsGet_fsSet, if_pos rfl]
  · unfold processFile
    rw [h1]
    simp

/-- Witness for C10: a codec whose WebP encoder always fails. -/
theorem c10_webp_failure_witness :
    optimize_image codecB defaultConfig fsA ["Finlande", "a.jpg"] =
      ⟨false, fsSet fsA ["Finlande", "a.jpg"] [85, 100, 80], some (3, 3)⟩ :=
  (c10_webp_failure_after_overwrite codecB defaultConfig fsA ["Finlande", "a.jpg"]
    [2, 100, 80] ⟨Mode.RGBA, 100, 80, []⟩ [85, 100, 80] ⟨0, 0, 0⟩ []
    rfl (by decide) (by decide) rfl rfl rfl).1

end OptImg
